import Mathlib

/-!
Verification development for a terminal form program that collects four
fields (name, region, size, image) and issues a one-shot droplet creation
request.  The definitions below are a shallow embedding of the program in
src/main.go: the form controller (model, Update), the request builder
(setDropletCreate, with the integer parse of strconv.Atoi embedded as
goAtoi), and the submission task (dropletCreate) over an oracle for the
external provisioning collaborator.  Cosmetic terminal styling is embedded
as plain text transformations, since the styling library leaves the text
content intact and only wraps it with color codes; style fields mutated by
Update are kept in the state.  Machine integers are embedded as Int with
the explicit 64-bit range check where the source parse can overflow.
-/

namespace DropletForm

/-- Visual styles used by the program; only the styles that Update actually
stores into the state are represented.  Styling is cosmetic. -/
inductive Style where
  | focusedS : Style
  | noS : Style
deriving DecidableEq, Repr

/-- One text input field, embedding the fields of the external text input
model that the program reads or writes: prompt, placeholder, value,
character limit, focus flag, and the two styles Update mutates. -/
structure TextInput where
  prompt : String
  placeholder : String
  value : String
  charLimit : Nat
  focused : Bool
  promptStyle : Style
  textStyle : Style
deriving DecidableEq, Repr

/-- The four inputs of the form, in order: name, region, size, image.
The source keeps them in a slice that always has length four
(make with length 4 in initialModel); the fixed-length record is the
shallow embedding of that slice. -/
structure Inputs where
  i0 : TextInput
  i1 : TextInput
  i2 : TextInput
  i3 : TextInput
deriving DecidableEq, Repr

/-- godo.DropletCreateImage: a struct holding a numeric id and a slug;
the program sets exactly one of them, leaving the other at its zero
value. -/
structure DropletCreateImage where
  id : Int := 0
  slug : String := ""
deriving DecidableEq, Repr

/-- godo.DropletCreateRequest, restricted to the fields the program sets. -/
structure DropletCreateRequest where
  name : String := ""
  region : String := ""
  size : String := ""
  image : DropletCreateImage := {}
deriving DecidableEq, Repr

/-- Number of input fields; len of the inputs slice in the source. -/
def numInputs : Nat := 4

/-- Keystrokes, by the strings the source switches on; char and backspace
cover the keys that fall through to the text input update. -/
inductive Key where
  | ctrlC : Key
  | esc : Key
  | tab : Key
  | shiftTab : Key
  | enter : Key
  | up : Key
  | down : Key
  | char : Char → Key
  | backspace : Key
deriving DecidableEq, Repr

/-- Messages delivered to Update: keystrokes, the submission task
completion message (dropletMsg in the source), and the spinner tick. -/
inductive Msg where
  | key : Key → Msg
  | droplet : String → Msg
  | tick : Msg
deriving DecidableEq, Repr

/-- Commands returned by Update; nil stands for a nil tea.Cmd entry,
dispatchCreate is the dropletCreate command carrying the request it was
built from. -/
inductive Cmd where
  | nil : Cmd
  | quit : Cmd
  | blink : Cmd
  | spinnerTick : Cmd
  | dispatchCreate : DropletCreateRequest → Cmd
deriving DecidableEq, Repr

/-- The program model (struct model in the source): focus index, the four
inputs, the spinner frame, the creating flag, the final message, and the
built request. -/
structure Model where
  focusIndex : Int
  inputs : Inputs
  spinnerFrame : Nat
  creating : Bool
  finalMsg : String
  droplet : Option DropletCreateRequest
deriving DecidableEq, Repr

/-- Base text input before per-field customization: NewModel with the
char limit 32 set by the loop body. -/
def baseInput : TextInput :=
  { prompt := "", placeholder := "", value := "", charLimit := 32,
    focused := false, promptStyle := Style.noS, textStyle := Style.noS }

/-- initialModel from the source: field zero focused with the focused
styles and char limit 64, the documented placeholders, focus index zero,
nothing creating, no final message. -/
def initialModel : Model :=
  { focusIndex := 0,
    inputs :=
    { i0 := { baseInput with
                prompt := "Name: ", placeholder := "web-001",
                focused := true, promptStyle := Style.focusedS,
                textStyle := Style.focusedS, charLimit := 64 },
      i1 := { baseInput with prompt := "Region: ", placeholder := "nyc3" },
      i2 := { baseInput with prompt := "Size: ", placeholder := "s-1vcpu-1gb" },
      i3 := { baseInput with prompt := "Image: ", placeholder := "ubuntu-20-04-x64" } },
    spinnerFrame := 0,
    creating := false,
    finalMsg := "",
    droplet := none }

/-- Numeric value of a list of decimal digit characters. -/
def digitsVal (ds : List Char) : Nat :=
  ds.foldl (fun a c => a * 10 + (c.toNat - 48)) 0

/-- strconv.Atoi embedded: optional single leading sign, then one or more
decimal digits, with the 64-bit signed range check that makes Atoi return
an out-of-range error (so none here) on overflow.  Any other shape fails. -/
def goAtoi (s : String) : Option Int :=
  match s.data with
  | [] => none
  | c :: rest =>
    let p : Bool × List Char :=
      if c = '-' then (true, rest)
      else if c = '+' then (false, rest)
      else (false, c :: rest)
    let neg := p.1
    let ds := p.2
    if ds.isEmpty then none
    else if ds.all Char.isDigit then
      let v := digitsVal ds
      if neg then
        if v ≤ 2 ^ 63 then some (-(v : Int)) else none
      else
        if v ≤ 2 ^ 63 - 1 then some (v : Int) else none
    else none

/-- setDropletCreate from the source: each field falls back to its
placeholder when the entered value is empty; the image string is first
taken as a slug, then replaced by a numeric id when Atoi succeeds. -/
def setDropletCreate (inputs : Inputs) : DropletCreateRequest :=
  let name := inputs.i0.value
  let name := if name = "" then inputs.i0.placeholder else name
  let region := inputs.i1.value
  let region := if region = "" then inputs.i1.placeholder else region
  let size := inputs.i2.value
  let size := if size = "" then inputs.i2.placeholder else size
  let imageStr := inputs.i3.value
  let imageStr := if imageStr = "" then inputs.i3.placeholder else imageStr
  let createImage : DropletCreateImage := { slug := imageStr }
  let createImage :=
    match goAtoi imageStr with
    | some i => { id := i }
    | none => createImage
  { name := name, region := region, size := size, image := createImage }

/-- The resolved value of a field as the spec words it: the stored value
when non-empty, otherwise the placeholder. -/
def resolvedValue (t : TextInput) : String :=
  if t.value = "" then t.placeholder else t.value

/-- Set focus state for input number i given the new focus index:
the focused input gets the focused styles, every other input is blurred
with the plain styles (the loop body of the cycle branch of Update). -/
def setFoc (i : Nat) (fi : Int) (t : TextInput) : TextInput :=
  if (i : Int) = fi then
    { t with focused := true, promptStyle := Style.focusedS, textStyle := Style.focusedS }
  else
    { t with focused := false, promptStyle := Style.noS, textStyle := Style.noS }

/-- Apply the focus loop of Update to all four inputs. -/
def refocus (fi : Int) (ins : Inputs) : Inputs :=
  { i0 := setFoc 0 fi ins.i0,
    i1 := setFoc 1 fi ins.i1,
    i2 := setFoc 2 fi ins.i2,
    i3 := setFoc 3 fi ins.i3 }

/-- Commands from the focus loop: the focused input contributes its focus
command (cursor blink), the blurred ones contribute nil entries. -/
def focusCmds (fi : Int) : List Cmd :=
  [ if (0 : Int) = fi then Cmd.blink else Cmd.nil,
    if (1 : Int) = fi then Cmd.blink else Cmd.nil,
    if (2 : Int) = fi then Cmd.blink else Cmd.nil,
    if (3 : Int) = fi then Cmd.blink else Cmd.nil ]

/-- The cycled focus index of the source: retreat keys decrement, the
rest increment, then the index is clamped past either end of the range
back to the other end. -/
def cycleFi (m : Model) (k : Key) : Int :=
  let fi := if k = Key.up ∨ k = Key.shiftTab then m.focusIndex - 1 else m.focusIndex + 1
  if fi > (numInputs : Int) then 0
  else if fi < 0 then (numInputs : Int) else fi

/-- The grouped tab, shift tab, enter, up, down branch of Update: enter on
the submit control builds the request, marks creating and dispatches the
task together with a spinner tick; otherwise the focus index cycles with
the clamping of the source and the inputs are refocused. -/
def cycleOrSubmit (m : Model) (k : Key) : Model × List Cmd :=
  if k = Key.enter ∧ m.focusIndex = (numInputs : Int) then
    let req := setDropletCreate m.inputs
    ({ m with droplet := some req, creating := true },
      [Cmd.dispatchCreate req, Cmd.spinnerTick])
  else
    ({ m with focusIndex := cycleFi m k, inputs := refocus (cycleFi m k) m.inputs },
      focusCmds (cycleFi m k))

/-- The external text input update, modelled from the spec contract of the
Field Model: insert appends when focused and under the character limit,
delete backward removes the last character when focused and non-empty;
every other message leaves the field unchanged. -/
def textInputUpdate (t : TextInput) (msg : Msg) : TextInput :=
  match msg with
  | Msg.key (Key.char c) =>
    if t.focused ∧ t.value.length < t.charLimit then { t with value := t.value.push c } else t
  | Msg.key Key.backspace =>
    if t.focused ∧ t.value ≠ "" then { t with value := t.value.dropRight 1 } else t
  | _ => t

/-- updateInputs from the source: every input receives the message; only
the focused one responds. -/
def updateAllInputs (ins : Inputs) (msg : Msg) : Inputs :=
  { i0 := textInputUpdate ins.i0 msg,
    i1 := textInputUpdate ins.i1 msg,
    i2 := textInputUpdate ins.i2 msg,
    i3 := textInputUpdate ins.i3 msg }

/-- The external spinner update: it advances one frame per tick message
and ignores everything else. -/
def spinnerStep (f : Nat) (msg : Msg) : Nat :=
  match msg with
  | Msg.tick => f + 1
  | _ => f

/-- Command returned by the spinner update: a further tick when it handled
a tick, else nil. -/
def spinnerCmdOf (msg : Msg) : Cmd :=
  match msg with
  | Msg.tick => Cmd.spinnerTick
  | _ => Cmd.nil

/-- The fallthrough tail of Update: updateInputs plus the spinner update. -/
def defaultUpdate (m : Model) (msg : Msg) : Model × List Cmd :=
  ({ m with
      inputs := updateAllInputs m.inputs msg,
      spinnerFrame := spinnerStep m.spinnerFrame msg },
    [Cmd.nil, spinnerCmdOf msg])

/-- model.Update from the source.  Cancel keys quit with the model
untouched; the grouped focus and submit keys go to cycleOrSubmit; the task
completion message stores the final message and quits; everything else
falls through to the inputs and spinner updates. -/
def update (m : Model) (msg : Msg) : Model × List Cmd :=
  match msg with
  | Msg.key Key.ctrlC => (m, [Cmd.quit])
  | Msg.key Key.esc => (m, [Cmd.quit])
  | Msg.key Key.tab => cycleOrSubmit m Key.tab
  | Msg.key Key.shiftTab => cycleOrSubmit m Key.shiftTab
  | Msg.key Key.enter => cycleOrSubmit m Key.enter
  | Msg.key Key.up => cycleOrSubmit m Key.up
  | Msg.key Key.down => cycleOrSubmit m Key.down
  | Msg.key k => defaultUpdate m (Msg.key k)
  | Msg.droplet s => ({ m with finalMsg := s }, [Cmd.quit])
  | Msg.tick => defaultUpdate m Msg.tick

/-- A droplet as the submission task reads it back from the collaborator:
identifier, name, region name, size slug, monthly price (in cents, so that
the currency amount the source formats with two decimals is embedded
without floating point), and the results of the two address lookups of the
collaborator (modelled from the spec: the address methods return the
address or an error when the expected interface is absent). -/
structure Droplet where
  id : Int
  name : String
  regionName : String
  sizeSlug : String
  priceMonthlyCents : Nat
  publicIPv4 : Except String String
  privateIPv4 : Except String String

/-- The external provisioning collaborator as a response oracle: create
returns the droplet together with the action reference used by the wait,
waitActive blocks on that reference, get refetches by identifier. -/
structure Network where
  create : DropletCreateRequest → Except String (Droplet × String)
  waitActive : String → Except String Unit
  get : Int → Except String Droplet

/-- How many calls the submission task made to the collaborator. -/
structure CallTrace where
  createCalls : Nat
  waitCalls : Nat
  getCalls : Nat
deriving DecidableEq, Repr

/-- The formatted error message of the source (dropletErrorMsg). -/
def dropletErrorMsg (e : String) : String :=
  "😞 Something went wrong:" ++ ("\n\n" ++ (e ++ "\n\n"))

/-- The configuration error text the task produces when the credential
environment variable is empty or absent. -/
def configErrMsg : String :=
  "set the \x27DO_TOKEN\x27 environment variable to a DigitalOcean API token"

/-- Two-digit rendering of the cents part of a price. -/
def pad2 (n : Nat) : String :=
  if n < 10 then "0" ++ toString n else toString n

/-- The price rendering of the source (dollar sign, two decimals),
embedded over cents. -/
def formatPrice (cents : Nat) : String :=
  "$" ++ (toString (cents / 100) ++ ("." ++ pad2 (cents % 100)))

/-- The formatted success message built by the task on full success,
concatenated exactly as the source prints it. -/
def successMsg (d : Droplet) (pubIP privIP : String) : String :=
  "🎉 💧 Success!\n\n" ++
  ("Name: " ++ (d.name ++
  ("\nPrice Monthly: " ++ (formatPrice d.priceMonthlyCents ++
  ("\nRegion: " ++ (d.regionName ++
  ("\nSize: " ++ (d.sizeSlug ++
  ("\nPublic IPv4: " ++ (pubIP ++
  ("\nPrivate IPv4: " ++ (privIP ++ "\n\n"))))))))))))

/-- The submission task (dropletCreate in the source), over the token read
from the environment (the empty string also stands for an absent
variable, as Getenv returns) and the collaborator oracle.  It returns the
single completion message together with the trace of collaborator calls. -/
def dropletCreate (token : String) (net : Network)
    (createReq : DropletCreateRequest) : String × CallTrace :=
  if token = "" then
    (dropletErrorMsg configErrMsg, { createCalls := 0, waitCalls := 0, getCalls := 0 })
  else
    match net.create createReq with
    | Except.error e =>
      (dropletErrorMsg e, { createCalls := 1, waitCalls := 0, getCalls := 0 })
    | Except.ok dh =>
      match net.waitActive dh.2 with
      | Except.error e =>
        (dropletErrorMsg e, { createCalls := 1, waitCalls := 1, getCalls := 0 })
      | Except.ok _ =>
        match net.get dh.1.id with
        | Except.error e =>
          (dropletErrorMsg e, { createCalls := 1, waitCalls := 1, getCalls := 1 })
        | Except.ok d =>
          match d.publicIPv4 with
          | Except.error e =>
            (dropletErrorMsg e, { createCalls := 1, waitCalls := 1, getCalls := 1 })
          | Except.ok pubIP =>
            match d.privateIPv4 with
            | Except.error e =>
              (dropletErrorMsg e, { createCalls := 1, waitCalls := 1, getCalls := 1 })
            | Except.ok privIP =>
              (successMsg d pubIP privIP, { createCalls := 1, waitCalls := 1, getCalls := 1 })

/-- The coarse lifecycle phase of the spec, derived from the stored state:
no final message means Editing or Submitting according to the creating
flag; a stored final message is a terminal phase, Failed exactly when the
message is a task error message (they all begin with the fixed leading
character of dropletErrorMsg). -/
inductive Phase where
  | Editing : Phase
  | Submitting : Phase
  | Succeeded : Phase
  | Failed : Phase
deriving DecidableEq, Repr

/-- The leading character of every task error message. -/
def sadChar : Char := '😞'

/-- Derived phase of a model state (see Phase). -/
def phase (m : Model) : Phase :=
  if m.finalMsg = "" then
    (if m.creating then Phase.Submitting else Phase.Editing)
  else if m.finalMsg.data.head? = some sadChar then Phase.Failed
  else Phase.Succeeded

/-- Whether the submit control is the focused element (the check of the
View function). -/
def submitFocused (m : Model) : Bool := m.focusIndex = (numInputs : Int)

/-- The string t has s as a substring: t splits as a prefix, then s, then
a suffix. -/
def strContains (t s : String) : Prop := ∃ a b : String, t = a ++ (s ++ b)

theorem strContains_here (a s b : String) : strContains (a ++ (s ++ b)) s := ⟨a, b, rfl⟩

theorem strContains_tail (x : String) {t s : String} (h : strContains t s) :
    strContains (x ++ t) s := by
  obtain ⟨a, b, rfl⟩ := h
  exact ⟨x ++ a, b, (String.append_assoc x a (s ++ b)).symm⟩

theorem data_head_append (a b : String) (c : Char) (h : a.data.head? = some c) :
    (a ++ b).data.head? = some c := by
  rw [String.data_append]
  cases ha : a.data with
  | nil => rw [ha] at h; exact absurd h (by simp)
  | cons x xs =>
    rw [ha] at h
    simp only [List.head?_cons, Option.some.injEq] at h
    subst h
    simp

theorem ne_empty_of_data_head (s : String) (c : Char) (h : s.data.head? = some c) :
    s ≠ "" := by
  intro he
  subst he
  rw [show ("" : String).data.head? = none from rfl] at h
  exact Option.noConfusion h

theorem errMsg_data_head (e : String) :
    (dropletErrorMsg e).data.head? = some sadChar := by
  unfold dropletErrorMsg
  exact data_head_append _ _ _ rfl

theorem successMsg_data_head (d : Droplet) (pubIP privIP : String) :
    (successMsg d pubIP privIP).data.head? = some '🎉' := by
  unfold successMsg
  exact data_head_append _ _ _ rfl

theorem phase_finalMsg_err (m : Model) (e : String) :
    phase { m with finalMsg := dropletErrorMsg e } = Phase.Failed := by
  have h1 : dropletErrorMsg e ≠ "" := ne_empty_of_data_head _ _ (errMsg_data_head e)
  simp [phase, h1, errMsg_data_head]

theorem phase_finalMsg_success (m : Model) (d : Droplet) (pubIP privIP : String) :
    phase { m with finalMsg := successMsg d pubIP privIP } = Phase.Succeeded := by
  have h1 : successMsg d pubIP privIP ≠ "" :=
    ne_empty_of_data_head _ _ (successMsg_data_head d pubIP privIP)
  have h2 : ¬ ((successMsg d pubIP privIP).data.head? = some sadChar) := by
    rw [successMsg_data_head]
    decide
  simp [phase, h1, h2]

theorem successMsg_contains (d : Droplet) (pubIP privIP : String) :
    strContains (successMsg d pubIP privIP) d.name ∧
    strContains (successMsg d pubIP privIP) (formatPrice d.priceMonthlyCents) ∧
    strContains (successMsg d pubIP privIP) d.regionName ∧
    strContains (successMsg d pubIP privIP) d.sizeSlug ∧
    strContains (successMsg d pubIP privIP) pubIP ∧
    strContains (successMsg d pubIP privIP) privIP := by
  unfold successMsg
  refine ⟨?_, ?_, ?_, ?_, ?_, ?_⟩
  · exact strContains_tail _ (strContains_here _ _ _)
  · exact strContains_tail _ (strContains_tail _ (strContains_tail _
      (strContains_here _ _ _)))
  · exact strContains_tail _ (strContains_tail _ (strContains_tail _
      (strContains_tail _ (strContains_tail _ (strContains_here _ _ _)))))
  · exact strContains_tail _ (strContains_tail _ (strContains_tail _
      (strContains_tail _ (strContains_tail _ (strContains_tail _
      (strContains_tail _ (strContains_here _ _ _)))))))
  · exact strContains_tail _ (strContains_tail _ (strContains_tail _
      (strContains_tail _ (strContains_tail _ (strContains_tail _
      (strContains_tail _ (strContains_tail _ (strContains_tail _
      (strContains_here _ _ _)))))))))
  · exact strContains_tail _ (strContains_tail _ (strContains_tail _
      (strContains_tail _ (strContains_tail _ (strContains_tail _
      (strContains_tail _ (strContains_tail _ (strContains_tail _
      (strContains_tail _ (strContains_tail _ (strContains_here _ _ _)))))))))))

/-- C3: submitting the form with all four field values empty produces a
creation request with exactly the documented placeholder values: name
web-001, region nyc3, size s-1vcpu-1gb, and the image slug
ubuntu-20-04-x64 (with the numeric id left at zero). -/
theorem c3_all_empty_request :
    setDropletCreate initialModel.inputs =
      { name := "web-001", region := "nyc3", size := "s-1vcpu-1gb",
        image := { id := 0, slug := "ubuntu-20-04-x64" } } := rfl

/-- C9: the cancel keystrokes (ctrl-c and esc) terminate immediately in
every model state, hence in every phase: the model is returned unchanged
(so no result message is stored or emitted) and the only command is quit.
Since the statement holds for every model, the cancel step relation is
identical in the Editing and Submitting phases. -/
theorem c9_cancel_quits (m : Model) :
    update m (Msg.key Key.ctrlC) = (m, [Cmd.quit]) ∧
    update m (Msg.key Key.esc) = (m, [Cmd.quit]) := ⟨rfl, rfl⟩

/-- C2: when the credential environment variable is absent or empty (the
environment read returns the empty string in both cases), the submission
task makes zero calls to the provisioning collaborator, returns the
configuration error message, and delivering that completion message to
Update stores it as the final message, quits, and puts the form in the
Failed phase. -/
theorem c2_missing_token (net : Network) (req : DropletCreateRequest) (m : Model) :
    (dropletCreate "" net req).2 = { createCalls := 0, waitCalls := 0, getCalls := 0 } ∧
    (dropletCreate "" net req).1 = dropletErrorMsg configErrMsg ∧
    (update m (Msg.droplet (dropletCreate "" net req).1)).1.finalMsg =
      dropletErrorMsg configErrMsg ∧
    (update m (Msg.droplet (dropletCreate "" net req).1)).2 = [Cmd.quit] ∧
    phase (update m (Msg.droplet (dropletCreate "" net req).1)).1 = Phase.Failed := by
  refine ⟨rfl, rfl, rfl, rfl, ?_⟩
  exact phase_finalMsg_err m configErrMsg

/-- Body of claim C5: the request builder uses the resolved value of every
field in order; the resolved value is the stored value exactly when that
value is non-empty and the placeholder when it is empty; and the submit
transition leaves the stored inputs untouched. -/
def c5prop (ins : Inputs) (t : TextInput) : Prop :=
  (setDropletCreate ins).name = resolvedValue ins.i0 ∧
  (setDropletCreate ins).region = resolvedValue ins.i1 ∧
  (setDropletCreate ins).size = resolvedValue ins.i2 ∧
  ((setDropletCreate ins).image =
    match goAtoi (resolvedValue ins.i3) with
    | some i => { id := i, slug := "" }
    | none => { id := 0, slug := resolvedValue ins.i3 }) ∧
  (t.value ≠ "" → resolvedValue t = t.value) ∧
  (t.value = "" → resolvedValue t = t.placeholder) ∧
  (∀ m : Model, m.focusIndex = (numInputs : Int) →
    (update m (Msg.key Key.enter)).1.inputs = m.inputs)

/-- C5: for every field, the resolved value is the stored value exactly
when non-empty and the placeholder otherwise; the request is built from
the resolved values; and computing them at submission time never mutates
any stored field. -/
theorem c5_resolved_value (ins : Inputs) (t : TextInput) : c5prop ins t := by
  unfold c5prop
  refine ⟨rfl, rfl, rfl, rfl, ?_, ?_, ?_⟩
  · intro h
    unfold resolvedValue
    rw [if_neg h]
  · intro h
    unfold resolvedValue
    rw [if_pos h]
  · intro m hfi
    simp [update, cycleOrSubmit, hfi]

/-- Witness for C5 at concrete fields: a field holding abc resolves to
abc, the empty image field of the initial model resolves to its
placeholder, and the submit keystroke at the submit control leaves the
initial inputs unchanged. -/
theorem c5_witness :
    (({ baseInput with value := "abc" } : TextInput).value ≠ "" ∧
      resolvedValue { baseInput with value := "abc" } = "abc") ∧
    (initialModel.inputs.i3.value = "" ∧
      resolvedValue initialModel.inputs.i3 = "ubuntu-20-04-x64") ∧
    (({ initialModel with focusIndex := 4 } : Model).focusIndex = (numInputs : Int) ∧
      (update { initialModel with focusIndex := 4 } (Msg.key Key.enter)).1.inputs =
        ({ initialModel with focusIndex := 4 } : Model).inputs) := by
  refine ⟨⟨by decide, ?_⟩, ⟨rfl, ?_⟩, ⟨by decide, ?_⟩⟩
  · exact (c5_resolved_value initialModel.inputs
      { baseInput with value := "abc" }).2.2.2.2.1 (by decide)
  · exact (c5_resolved_value initialModel.inputs initialModel.inputs.i3).2.2.2.2.2.1 rfl
  · exact (c5_resolved_value initialModel.inputs baseInput).2.2.2.2.2.2
      { initialModel with focusIndex := 4 } (by decide)

/-- Body of claim C4: the image reference of the built request is the
numeric identifier when the resolved image string parses as a base-10
integer (strconv.Atoi semantics, including the 64-bit range) and the raw
string as a slug otherwise, with the two documented examples. -/
def c4prop (ins : Inputs) : Prop :=
  (∀ n : Int, goAtoi (resolvedValue ins.i3) = some n →
    (setDropletCreate ins).image = { id := n, slug := "" }) ∧
  (goAtoi (resolvedValue ins.i3) = none →
    (setDropletCreate ins).image = { id := 0, slug := resolvedValue ins.i3 }) ∧
  goAtoi "12345" = some 12345 ∧
  goAtoi "ubuntu-20-04-x64" = none

/-- The image component of the built request, exposed as a case split on
the embedded integer parse of the resolved image string. -/
theorem setDropletCreate_image (ins : Inputs) :
    (setDropletCreate ins).image =
      match goAtoi (resolvedValue ins.i3) with
      | some i => { id := i, slug := "" }
      | none => { id := 0, slug := resolvedValue ins.i3 } := rfl

/-- C4: image resolution follows the two-way disambiguation of the source:
a successful base-10 parse yields a numeric identifier with that value,
any other string is used verbatim as a slug identifier. -/
theorem c4_image_resolution (ins : Inputs) : c4prop ins := by
  unfold c4prop
  refine ⟨?_, ?_, by decide, by decide⟩
  · intro n h
    rw [setDropletCreate_image, h]
  · intro h
    rw [setDropletCreate_image, h]

/-- Inputs equal to the initial ones except that the image field holds the
string 12345. -/
def insNumericImage : Inputs :=
  { initialModel.inputs with i3 := { initialModel.inputs.i3 with value := "12345" } }

/-- Witness for C4 at concrete inputs: the image string 12345 resolves to
the numeric identifier 12345, and the initial placeholder string resolves
to the slug ubuntu-20-04-x64. -/
theorem c4_witness :
    (goAtoi (resolvedValue insNumericImage.i3) = some 12345 ∧
      (setDropletCreate insNumericImage).image = { id := 12345, slug := "" }) ∧
    (goAtoi (resolvedValue initialModel.inputs.i3) = none ∧
      (setDropletCreate initialModel.inputs).image =
        { id := 0, slug := "ubuntu-20-04-x64" }) := by
  refine ⟨⟨by decide, ?_⟩, ⟨by decide, ?_⟩⟩
  · exact (c4_image_resolution insNumericImage).1 12345 (by decide)
  · exact (c4_image_resolution initialModel.inputs).2.1 (by decide)

/-- The advance and retreat focus actions of the spec, by the keys the
source groups together (enter is treated separately, see claim C10). -/
inductive FocusKey where
  | tab : FocusKey
  | shiftTab : FocusKey
  | up : FocusKey
  | down : FocusKey
deriving DecidableEq, Repr

/-- The keystroke carried by a focus action. -/
def FocusKey.toKey : FocusKey → Key
  | FocusKey.tab => Key.tab
  | FocusKey.shiftTab => Key.shiftTab
  | FocusKey.up => Key.up
  | FocusKey.down => Key.down

/-- The model after one keystroke (the command is dropped). -/
def stepKey (m : Model) (k : Key) : Model := (update m (Msg.key k)).1

/-- The model after a sequence of focus actions. -/
def applyFocus : Model → List FocusKey → Model
  | m, [] => m
  | m, a :: r => applyFocus (stepKey m a.toKey) r

/-- The focus invariant: the focus index is within the field range plus
the submit control, and each field is focused exactly when the focus
index designates it. -/
def goodFocus (m : Model) : Prop :=
  0 ≤ m.focusIndex ∧ m.focusIndex ≤ (numInputs : Int) ∧
  (m.inputs.i0.focused = true ↔ m.focusIndex = 0) ∧
  (m.inputs.i1.focused = true ↔ m.focusIndex = 1) ∧
  (m.inputs.i2.focused = true ↔ m.focusIndex = 2) ∧
  (m.inputs.i3.focused = true ↔ m.focusIndex = 3)

/-- How many elements are focused, among the four fields and the submit
control. -/
def focusedCount (m : Model) : Nat :=
  (if m.inputs.i0.focused then 1 else 0) + (if m.inputs.i1.focused then 1 else 0) +
  (if m.inputs.i2.focused then 1 else 0) + (if m.inputs.i3.focused then 1 else 0) +
  (if submitFocused m then 1 else 0)

theorem cycleFi_bounds (m : Model) (k : Key) :
    0 ≤ cycleFi m k ∧ cycleFi m k ≤ (numInputs : Int) := by
  simp only [cycleFi]
  split_ifs <;> constructor <;> omega

theorem setFoc_focused (i : Nat) (fi : Int) (t : TextInput) :
    (setFoc i fi t).focused = true ↔ fi = (i : Int) := by
  unfold setFoc
  split
  · simp_all [eq_comm]
  · simp_all [eq_comm]

theorem cycleModel_good (m : Model) (k : Key) :
    goodFocus { m with focusIndex := cycleFi m k, inputs := refocus (cycleFi m k) m.inputs } := by
  obtain ⟨h0, h4⟩ := cycleFi_bounds m k
  exact ⟨h0, h4, setFoc_focused 0 _ m.inputs.i0, setFoc_focused 1 _ m.inputs.i1,
    setFoc_focused 2 _ m.inputs.i2, setFoc_focused 3 _ m.inputs.i3⟩

theorem step_good (m : Model) (a : FocusKey) : goodFocus (stepKey m a.toKey) := by
  cases a with
  | tab => exact cycleModel_good m Key.tab
  | shiftTab => exact cycleModel_good m Key.shiftTab
  | up => exact cycleModel_good m Key.up
  | down => exact cycleModel_good m Key.down

theorem applyFocus_good (acts : List FocusKey) :
    ∀ m : Model, goodFocus m → goodFocus (applyFocus m acts) := by
  induction acts with
  | nil => intro m h; exact h
  | cons a r ih => intro m _; exact ih (stepKey m a.toKey) (step_good m a)

theorem initial_good : goodFocus initialModel := by
  unfold goodFocus
  decide

theorem good_focusedCount (m : Model) (h : goodFocus m) : focusedCount m = 1 := by
  obtain ⟨h0, h4, e0, e1, e2, e3⟩ := h
  unfold focusedCount submitFocused
  have h5 : m.focusIndex = 0 ∨ m.focusIndex = 1 ∨ m.focusIndex = 2 ∨
      m.focusIndex = 3 ∨ m.focusIndex = (numInputs : Int) := by
    unfold numInputs at h4 ⊢
    omega
  rcases h5 with h | h | h | h | h <;>
    simp_all [numInputs]

/-- C6: along every sequence of advance and retreat focus actions from the
initial form state, the focus index stays in the closed range from zero to
the number of fields (the top index denoting the submit control), and
exactly one element among the four fields and the submit control is
focused. -/
theorem c6_focus_invariant (acts : List FocusKey) :
    0 ≤ (applyFocus initialModel acts).focusIndex ∧
    (applyFocus initialModel acts).focusIndex ≤ (numInputs : Int) ∧
    focusedCount (applyFocus initialModel acts) = 1 := by
  have hg := applyFocus_good acts initialModel initial_good
  exact ⟨hg.1, hg.2.1, good_focusedCount _ hg⟩

theorem cycleFi_advance (m : Model) (k : Key) (hk : k = Key.tab ∨ k = Key.down)
    (h0 : 0 ≤ m.focusIndex) (h4 : m.focusIndex ≤ (numInputs : Int)) :
    cycleFi m k = (m.focusIndex + 1) % 5 := by
  unfold numInputs at h4
  have hcond : ¬(k = Key.up ∨ k = Key.shiftTab) := by
    rcases hk with hk | hk <;> subst hk <;> simp
  simp only [cycleFi, numInputs]
  rw [if_neg hcond]
  split_ifs <;> omega

theorem cycleFi_retreat (m : Model) (k : Key) (hk : k = Key.up ∨ k = Key.shiftTab)
    (h0 : 0 ≤ m.focusIndex) (h4 : m.focusIndex ≤ (numInputs : Int)) :
    cycleFi m k = (m.focusIndex - 1 + 5) % 5 := by
  unfold numInputs at h4
  have hcond : k = Key.up ∨ k = Key.shiftTab := hk
  simp only [cycleFi, numInputs]
  rw [if_pos hcond]
  split_ifs <;> omega

theorem stepKey_tab_fi (m : Model) : (stepKey m Key.tab).focusIndex = cycleFi m Key.tab := rfl

theorem stepKey_down_fi (m : Model) : (stepKey m Key.down).focusIndex = cycleFi m Key.down := rfl

theorem stepKey_shiftTab_fi (m : Model) :
    (stepKey m Key.shiftTab).focusIndex = cycleFi m Key.shiftTab := rfl

theorem stepKey_up_fi (m : Model) : (stepKey m Key.up).focusIndex = cycleFi m Key.up := rfl

/-- Body of claim C7: one advance computes focus index plus one modulo
five, one retreat computes focus index minus one plus five modulo five,
and five advances in a row return the focus index to its original value. -/
def c7prop (m : Model) : Prop :=
  (stepKey m Key.tab).focusIndex = (m.focusIndex + 1) % 5 ∧
  (stepKey m Key.down).focusIndex = (m.focusIndex + 1) % 5 ∧
  (stepKey m Key.shiftTab).focusIndex = (m.focusIndex - 1 + 5) % 5 ∧
  (stepKey m Key.up).focusIndex = (m.focusIndex - 1 + 5) % 5 ∧
  (stepKey (stepKey (stepKey (stepKey (stepKey m Key.tab) Key.tab) Key.tab) Key.tab)
      Key.tab).focusIndex = m.focusIndex

/-- One advance step: the modulo-five formula together with preservation
of the focus index range. -/
theorem tab_step (m : Model) (h0 : 0 ≤ m.focusIndex) (h4 : m.focusIndex ≤ (numInputs : Int)) :
    (stepKey m Key.tab).focusIndex = (m.focusIndex + 1) % 5 ∧
    0 ≤ (stepKey m Key.tab).focusIndex ∧
    (stepKey m Key.tab).focusIndex ≤ (numInputs : Int) := by
  rw [stepKey_tab_fi]
  exact ⟨cycleFi_advance m Key.tab (Or.inl rfl) h0 h4, (cycleFi_bounds m Key.tab).1,
    (cycleFi_bounds m Key.tab).2⟩

/-- C7: from every reachable focus index (in range), each advance is plus
one modulo five, each retreat is minus one plus five modulo five, and
five consecutive advances restore the original focus index. -/
theorem c7_cyclic_focus (m : Model) (h0 : 0 ≤ m.focusIndex)
    (h4 : m.focusIndex ≤ (numInputs : Int)) : c7prop m := by
  obtain ⟨f1, g1, g1b⟩ := tab_step m h0 h4
  obtain ⟨f2, g2, g2b⟩ := tab_step _ g1 g1b
  obtain ⟨f3, g3, g3b⟩ := tab_step _ g2 g2b
  obtain ⟨f4, g4, g4b⟩ := tab_step _ g3 g3b
  obtain ⟨f5, _, _⟩ := tab_step _ g4 g4b
  refine ⟨f1, ?_, ?_, ?_, ?_⟩
  · rw [stepKey_down_fi]
    exact cycleFi_advance m Key.down (Or.inr rfl) h0 h4
  · rw [stepKey_shiftTab_fi]
    exact cycleFi_retreat m Key.shiftTab (Or.inr rfl) h0 h4
  · rw [stepKey_up_fi]
    exact cycleFi_retreat m Key.up (Or.inl rfl) h0 h4
  · rw [f5, f4, f3, f2, f1]
    unfold numInputs at h4
    omega

/-- Witness for C7 at the initial model: the bounds hold there, one tab
advances the focus index to one, and five tabs return it to zero. -/
theorem c7_witness :
    (0 ≤ initialModel.focusIndex ∧ initialModel.focusIndex ≤ (numInputs : Int)) ∧
    c7prop initialModel :=
  ⟨⟨by decide, by decide⟩, c7_cyclic_focus initialModel (by decide) (by decide)⟩

/-- The model after an enter keystroke. -/
def enterState (m : Model) : Model := (update m (Msg.key Key.enter)).1

/-- Iterate the enter keystroke. -/
def iterEnter : Nat → Model → Model
  | 0, m => m
  | n + 1, m => iterEnter n (enterState m)

/-- No command in the list dispatches the submission task. -/
def noDispatch (cs : List Cmd) : Bool :=
  cs.all fun c =>
    match c with
    | Cmd.dispatchCreate _ => false
    | _ => true

/-- How many commands in the list dispatch the submission task. -/
def countDispatch (cs : List Cmd) : Nat :=
  cs.countP fun c =>
    match c with
    | Cmd.dispatchCreate _ => true
    | _ => false

/-- Along n enter keystrokes from m, no step dispatches the submission
task. -/
def cleanTrace : Nat → Model → Prop
  | 0, _ => True
  | n + 1, m =>
    noDispatch (update m (Msg.key Key.enter)).2 = true ∧ cleanTrace n (enterState m)

theorem enter_not_submit (m : Model) (h : m.focusIndex ≠ (numInputs : Int)) :
    update m (Msg.key Key.enter) =
      ({ m with
          focusIndex := cycleFi m Key.enter,
          inputs := refocus (cycleFi m Key.enter) m.inputs },
        focusCmds (cycleFi m Key.enter)) := by
  show cycleOrSubmit m Key.enter = _
  unfold cycleOrSubmit
  rw [if_neg]
  intro hc
  exact h hc.2

theorem enter_submit (m : Model) (h : m.focusIndex = (numInputs : Int)) :
    update m (Msg.key Key.enter) =
      ({ m with droplet := some (setDropletCreate m.inputs), creating := true },
        [Cmd.dispatchCreate (setDropletCreate m.inputs), Cmd.spinnerTick]) := by
  show cycleOrSubmit m Key.enter = _
  unfold cycleOrSubmit
  rw [if_pos ⟨rfl, h⟩]

theorem noDispatch_focusCmds (fi : Int) : noDispatch (focusCmds fi) = true := by
  unfold noDispatch focusCmds
  split_ifs <;> rfl

theorem cycleFi_enter (m : Model) (h0 : 0 ≤ m.focusIndex)
    (h1 : m.focusIndex < (numInputs : Int)) :
    cycleFi m Key.enter = m.focusIndex + 1 := by
  unfold numInputs at h1
  have hcond : ¬(Key.enter = Key.up ∨ Key.enter = Key.shiftTab) := by simp
  simp only [cycleFi, numInputs]
  rw [if_neg hcond]
  split_ifs <;> omega

theorem enter_reaches (n : Nat) : ∀ m : Model, 0 ≤ m.focusIndex →
    m.focusIndex + n = (numInputs : Int) →
    (iterEnter n m).focusIndex = (numInputs : Int) ∧ cleanTrace n m := by
  induction n with
  | zero =>
    intro m _ hs
    exact ⟨by simpa using hs, trivial⟩
  | succ k ih =>
    intro m h0 hs
    have hlt : m.focusIndex < (numInputs : Int) := by
      unfold numInputs at hs ⊢
      omega
    have hne : m.focusIndex ≠ (numInputs : Int) := ne_of_lt hlt
    have hfi : (enterState m).focusIndex = m.focusIndex + 1 := by
      unfold enterState
      rw [enter_not_submit m hne]
      exact cycleFi_enter m h0 hlt
    have hrec := ih (enterState m) (by rw [hfi]; omega)
      (by rw [hfi]; unfold numInputs at hs ⊢; omega)
    refine ⟨hrec.1, ?_, hrec.2⟩
    rw [enter_not_submit m hne]
    exact noDispatch_focusCmds _

theorem cycleFi_enter_eq_tab (m : Model) : cycleFi m Key.enter = cycleFi m Key.tab := by
  simp only [cycleFi]
  rw [if_neg (by simp : ¬(Key.enter = Key.up ∨ Key.enter = Key.shiftTab)),
    if_neg (by simp : ¬(Key.tab = Key.up ∨ Key.tab = Key.shiftTab))]

theorem cycleFi_enter_eq_down (m : Model) : cycleFi m Key.enter = cycleFi m Key.down := by
  simp only [cycleFi]
  rw [if_neg (by simp : ¬(Key.enter = Key.up ∨ Key.enter = Key.shiftTab)),
    if_neg (by simp : ¬(Key.down = Key.up ∨ Key.down = Key.shiftTab))]

theorem enter_eq_tab (m : Model) (hne : m.focusIndex ≠ (numInputs : Int)) :
    update m (Msg.key Key.enter) = update m (Msg.key Key.tab) := by
  rw [enter_not_submit m hne]
  show _ = cycleOrSubmit m Key.tab
  unfold cycleOrSubmit
  rw [if_neg (by simp : ¬(Key.tab = Key.enter ∧ m.focusIndex = (numInputs : Int)))]
  rw [cycleFi_enter_eq_tab]

theorem enter_eq_down (m : Model) (hne : m.focusIndex ≠ (numInputs : Int)) :
    update m (Msg.key Key.enter) = update m (Msg.key Key.down) := by
  rw [enter_not_submit m hne]
  show _ = cycleOrSubmit m Key.down
  unfold cycleOrSubmit
  rw [if_neg (by simp : ¬(Key.down = Key.enter ∧ m.focusIndex = (numInputs : Int)))]
  rw [cycleFi_enter_eq_down]

/-- Body of claim C10: below the submit control, enter is neither a submit
nor a no-op; it coincides with tab and down, advances the focus index by
one, dispatches nothing, and only after enough enters to reach the submit
control does one further enter dispatch the submission task. -/
def c10prop (m : Model) : Prop :=
  update m (Msg.key Key.enter) = update m (Msg.key Key.tab) ∧
  update m (Msg.key Key.enter) = update m (Msg.key Key.down) ∧
  (update m (Msg.key Key.enter)).1.focusIndex = m.focusIndex + 1 ∧
  noDispatch (update m (Msg.key Key.enter)).2 = true ∧
  (iterEnter (numInputs - m.focusIndex.toNat) m).focusIndex = (numInputs : Int) ∧
  cleanTrace (numInputs - m.focusIndex.toNat) m ∧
  update (iterEnter (numInputs - m.focusIndex.toNat) m) (Msg.key Key.enter) =
    ({ iterEnter (numInputs - m.focusIndex.toNat) m with
        droplet := some (setDropletCreate (iterEnter (numInputs - m.focusIndex.toNat) m).inputs),
        creating := true },
      [Cmd.dispatchCreate (setDropletCreate (iterEnter (numInputs - m.focusIndex.toNat) m).inputs),
        Cmd.spinnerTick])

/-- C10: with focus on a field (index below the field count), the enter
keystroke advances focus exactly as tab and down do; repeated enters reach
the submit control without dispatching anything, and only the enter at the
submit control dispatches the submission task. -/
theorem c10_enter_advances (m : Model) (h0 : 0 ≤ m.focusIndex)
    (h1 : m.focusIndex < (numInputs : Int)) : c10prop m := by
  have hne : m.focusIndex ≠ (numInputs : Int) := ne_of_lt h1
  have hsum : m.focusIndex + (numInputs - m.focusIndex.toNat : Nat) = (numInputs : Int) := by
    unfold numInputs at h1 ⊢
    omega
  have hreach := enter_reaches (numInputs - m.focusIndex.toNat) m h0 hsum
  refine ⟨enter_eq_tab m hne, enter_eq_down m hne, ?_, ?_, hreach.1, hreach.2, ?_⟩
  · rw [enter_not_submit m hne]
    exact cycleFi_enter m h0 h1
  · rw [enter_not_submit m hne]
    exact noDispatch_focusCmds _
  · exact enter_submit _ hreach.1

/-- Witness for C10 at the initial model: the focus index zero is in
range, and the property holds there. -/
theorem c10_witness :
    (0 ≤ initialModel.focusIndex ∧ initialModel.focusIndex < (numInputs : Int)) ∧
    c10prop initialModel :=
  ⟨⟨by decide, by decide⟩, c10_enter_advances initialModel (by decide) (by decide)⟩

/-- The reachable Submitting state: four enters move focus to the submit
control, the fifth submits and dispatches the task. -/
def mSubmitting : Model :=
  enterState (enterState (enterState (enterState (enterState initialModel))))

/-- Counterexample to claim C1 as stated: in the Submitting phase
(creating is set, no final message yet), a further enter keystroke
dispatches a second submission task, and a tab keystroke changes the
focus state; so keystrokes other than cancel do have an effect and the
task is not dispatched exactly once per submission. -/
theorem c1_counterexample :
    mSubmitting.creating = true ∧ mSubmitting.finalMsg = "" ∧
    mSubmitting.focusIndex = (numInputs : Int) ∧
    countDispatch (update mSubmitting (Msg.key Key.enter)).2 = 1 ∧
    (update mSubmitting (Msg.key Key.tab)).1.focusIndex = 0 :=
  ⟨rfl, rfl, rfl, rfl, rfl⟩

/-- Body of the amended claim C1: while the form is Submitting, keystroke
processing is exactly the Editing behaviour (the update function never
consults the creating flag on keystrokes), so focus keys still move focus
and an enter keystroke at the submit control dispatches one further
submission task per press. -/
def c1prop (m : Model) (k : Key) : Prop :=
  (update { m with creating := true } (Msg.key k)).1 =
    { (update { m with creating := false } (Msg.key k)).1 with creating := true } ∧
  (update { m with creating := true } (Msg.key k)).2 =
    (update { m with creating := false } (Msg.key k)).2 ∧
  (m.focusIndex = (numInputs : Int) →
    (update { m with creating := true } (Msg.key Key.enter)).2 =
      [Cmd.dispatchCreate (setDropletCreate m.inputs), Cmd.spinnerTick])

/-- C1 amended: keystrokes while Submitting are processed exactly as in
Editing, up to the creating flag itself; in particular enter at the submit
control dispatches an additional task on every press. -/
theorem c1_amended (m : Model) (k : Key) : c1prop m k := by
  unfold c1prop
  refine ⟨?_, ?_, ?_⟩
  · cases k with
    | enter =>
      by_cases hfi : m.focusIndex = (numInputs : Int)
      · rw [enter_submit { m with creating := true } hfi,
          enter_submit { m with creating := false } hfi]
      · rw [enter_not_submit { m with creating := true } hfi,
          enter_not_submit { m with creating := false } hfi]
        rfl
    | ctrlC => rfl
    | esc => rfl
    | tab => rfl
    | shiftTab => rfl
    | up => rfl
    | down => rfl
    | char c => rfl
    | backspace => rfl
  · cases k with
    | enter =>
      by_cases hfi : m.focusIndex = (numInputs : Int)
      · rw [enter_submit { m with creating := true } hfi,
          enter_submit { m with creating := false } hfi]
      · rw [enter_not_submit { m with creating := true } hfi,
          enter_not_submit { m with creating := false } hfi]
        rfl
    | ctrlC => rfl
    | esc => rfl
    | tab => rfl
    | shiftTab => rfl
    | up => rfl
    | down => rfl
    | char c => rfl
    | backspace => rfl
  · intro h
    rw [enter_submit { m with creating := true } h]

/-- Witness for the amended C1 at the reachable Submitting state: its
focus index is at the submit control and a further enter dispatches a
second task. -/
theorem c1_witness :
    mSubmitting.focusIndex = (numInputs : Int) ∧
    (update { mSubmitting with creating := true } (Msg.key Key.enter)).2 =
      [Cmd.dispatchCreate (setDropletCreate mSubmitting.inputs), Cmd.spinnerTick] :=
  ⟨rfl, (c1_amended mSubmitting Key.enter).2.2 rfl⟩

/-- Body of claim C8: the single completion message of a run of the
submission task (the task function returns exactly one message, so
exactly one terminal event is emitted per run) is stored by Update as the
final message with a quit command; when every step succeeds the message
is the success summary and contains the name, the formatted monthly
price, the region, the size identifier and both addresses, and the
derived phase is Succeeded; when any step fails the message is the
formatted error message of that failure and the derived phase is
Failed. -/
def c8prop (token : String) (net : Network) (req : DropletCreateRequest) (m : Model) : Prop :=
  (update m (Msg.droplet (dropletCreate token net req).1)).1.finalMsg =
    (dropletCreate token net req).1 ∧
  (update m (Msg.droplet (dropletCreate token net req).1)).2 = [Cmd.quit] ∧
  (match net.create req with
   | Except.error e =>
       (dropletCreate token net req).1 = dropletErrorMsg e ∧
       phase (update m (Msg.droplet (dropletCreate token net req).1)).1 = Phase.Failed
   | Except.ok dh =>
     match net.waitActive dh.2 with
     | Except.error e =>
         (dropletCreate token net req).1 = dropletErrorMsg e ∧
         phase (update m (Msg.droplet (dropletCreate token net req).1)).1 = Phase.Failed
     | Except.ok _ =>
       match net.get dh.1.id with
       | Except.error e =>
           (dropletCreate token net req).1 = dropletErrorMsg e ∧
           phase (update m (Msg.droplet (dropletCreate token net req).1)).1 = Phase.Failed
       | Except.ok d =>
         match d.publicIPv4 with
         | Except.error e =>
             (dropletCreate token net req).1 = dropletErrorMsg e ∧
             phase (update m (Msg.droplet (dropletCreate token net req).1)).1 = Phase.Failed
         | Except.ok pubIP =>
           match d.privateIPv4 with
           | Except.error e =>
               (dropletCreate token net req).1 = dropletErrorMsg e ∧
               phase (update m (Msg.droplet (dropletCreate token net req).1)).1 = Phase.Failed
           | Except.ok privIP =>
               (dropletCreate token net req).1 = successMsg d pubIP privIP ∧
               strContains (dropletCreate token net req).1 d.name ∧
               strContains (dropletCreate token net req).1 (formatPrice d.priceMonthlyCents) ∧
               strContains (dropletCreate token net req).1 d.regionName ∧
               strContains (dropletCreate token net req).1 d.sizeSlug ∧
               strContains (dropletCreate token net req).1 pubIP ∧
               strContains (dropletCreate token net req).1 privIP ∧
               phase (update m (Msg.droplet (dropletCreate token net req).1)).1 =
                 Phase.Succeeded)

/-- C8: each run of the submission task with a present credential emits
one terminal event, stored as the result message with a quit; success
yields the six-field summary message and the Succeeded phase, any failing
step yields its formatted error message and the Failed phase. -/
theorem c8_one_terminal_event (token : String) (net : Network)
    (req : DropletCreateRequest) (m : Model) (h : token ≠ "") :
    c8prop token net req m := by
  unfold c8prop
  refine ⟨rfl, rfl, ?_⟩
  unfold dropletCreate
  rw [if_neg h]
  rcases hc : net.create req with e | dh
  · simp only [hc]
    exact ⟨trivial, phase_finalMsg_err m e⟩
  · rcases hw : net.waitActive dh.2 with e | u
    · simp only [hc, hw]
      exact ⟨trivial, phase_finalMsg_err m e⟩
    · rcases hg : net.get dh.1.id with e | d
      · simp only [hc, hw, hg]
        exact ⟨trivial, phase_finalMsg_err m e⟩
      · rcases hp : d.publicIPv4 with e | pubIP
        · simp only [hc, hw, hg, hp]
          exact ⟨trivial, phase_finalMsg_err m e⟩
        · rcases hq : d.privateIPv4 with e | privIP
          · simp only [hc, hw, hg, hp, hq]
            exact ⟨trivial, phase_finalMsg_err m e⟩
          · simp only [hc, hw, hg, hp, hq]
            obtain ⟨s1, s2, s3, s4, s5, s6⟩ := successMsg_contains d pubIP privIP
            exact ⟨trivial, s1, s2, s3, s4, s5, s6, phase_finalMsg_success m d pubIP privIP⟩

/-- A concrete droplet for the C8 witness. -/
def dropletW : Droplet :=
  { id := 7, name := "web-001", regionName := "New York 3",
    sizeSlug := "s-1vcpu-1gb", priceMonthlyCents := 600,
    publicIPv4 := Except.ok "203.0.113.5",
    privateIPv4 := Except.ok "10.116.0.2" }

/-- A concrete all-success collaborator oracle for the C8 witness. -/
def netW : Network :=
  { create := fun _ => Except.ok (dropletW, "actions/7"),
    waitActive := fun _ => Except.ok (),
    get := fun _ => Except.ok dropletW }

/-- Witness for C8 at a concrete non-empty token, an all-success oracle
and the default request. -/
theorem c8_witness :
    ("token" : String) ≠ "" ∧
    c8prop "token" netW (setDropletCreate initialModel.inputs) initialModel :=
  ⟨by decide, c8_one_terminal_event "token" netW (setDropletCreate initialModel.inputs)
    initialModel (by decide)⟩

end DropletForm
